import Mathlib

/-!
Shallow embedding of the student-grade dashboard (src/app.py) and proofs of
its specification's claims.

Modelling conventions:
* a pandas row is a `Row`; a cell that may be NaN is an `Option`;
* floats are embedded as exact rationals (`ℚ`);
* the startup cleaning pipeline (app.py lines 13-39) is the composition
  `cleanTable` of one list transformation per pandas statement;
* the reactive callbacks `set_secondary_options` and `update_graph`
  (app.py lines 101-166) are pure functions of their inputs; `update_graph`
  returns the aggregated counts/percentage table (the part of the figure the
  claims are about), `PreventUpdate` and a pandas key error being the other
  two outcomes.
-/

namespace StudentDashboard

/-- One row of the student table.  The seven CSV columns are string-valued
cells (`none` models a missing value / NaN); `grade_numeric` is the derived
numeric column added by the pipeline (`none` before it is computed, and for
unmapped grades). -/
structure Row where
  Grade : Option String
  Gender : Option String
  RaceEthnicity : Option String
  Course : Option String
  Semester : Option String
  CovidImpact : Option String
  FirstGeneration : Option String
  grade_numeric : Option ℚ := none
deriving DecidableEq, Repr

/-- `grade_to_number` (app.py lines 19-27): the fixed grade lookup table;
`none` models the `np.nan` returned for an unmapped grade string. -/
def grade_to_number (grade : String) : Option ℚ :=
  if grade = "A+" then some (433/100)
  else if grade = "A" then some 4
  else if grade = "A-" then some (367/100)
  else if grade = "B+" then some (333/100)
  else if grade = "B" then some 3
  else if grade = "B-" then some (267/100)
  else if grade = "C+" then some (233/100)
  else if grade = "C" then some 2
  else if grade = "C-" then some (167/100)
  else if grade = "D+" then some (133/100)
  else if grade = "D" then some 1
  else if grade = "D-" then some (67/100)
  else if grade = "F" then some 0
  else if grade = "W" then some (-(3/10))
  else none

/-- A row has no missing value in any of the seven CSV columns (the columns
present when `df.dropna()` on line 16 runs, before `grade_numeric` exists). -/
def allPresent (r : Row) : Bool :=
  r.Grade.isSome && r.Gender.isSome && r.RaceEthnicity.isSome && r.Course.isSome &&
    r.Semester.isSome && r.CovidImpact.isSome && r.FirstGeneration.isSome

/-- `df.dropna(inplace=True)` (app.py line 16). -/
def dropnaAll (t : List Row) : List Row :=
  t.filter allPresent

/-- `df['grade_numeric'] = df['Grade'].apply(grade_to_number)` (app.py
line 31); applying `grade_to_number` to a NaN grade yields NaN, hence
`Option.bind`. -/
def addGradeNumeric (t : List Row) : List Row :=
  t.map (fun r => { r with grade_numeric := r.Grade.bind grade_to_number })

/-- `df.dropna(subset=['grade_numeric'], inplace=True)` (app.py line 34). -/
def dropnaGradeNumeric (t : List Row) : List Row :=
  t.filter (fun r => r.grade_numeric.isSome)

/-- `df['Gender'] = df['Gender'].str.lower()` (app.py line 37); `.str.lower()`
maps NaN to NaN, hence `Option.map`. -/
def lowerGender (t : List Row) : List Row :=
  t.map (fun r => { r with Gender := r.Gender.map String.toLower })

/-- `df['Race/Ethnicity'] = df['Race/Ethnicity'].str.lower()` (app.py line 38). -/
def lowerRace (t : List Row) : List Row :=
  t.map (fun r => { r with RaceEthnicity := r.RaceEthnicity.map String.toLower })

/-- `df['Course'] = df['Course'].str.upper()` (app.py line 39). -/
def upperCourse (t : List Row) : List Row :=
  t.map (fun r => { r with Course := r.Course.map String.toUpper })

/-- The startup cleaning pipeline (app.py lines 16-39), in source order. -/
def cleanTable (t : List Row) : List Row :=
  upperCourse (lowerRace (lowerGender (dropnaGradeNumeric (addGradeNumeric (dropnaAll t)))))

/-- The per-row effect of the cleaning pipeline: `none` when the row is
dropped, otherwise the cleaned row.  Proof device; `cleanTable_eq_filterMap`
ties it to `cleanTable`. -/
def cleanRow (r : Row) : Option Row :=
  if allPresent r then
    let r1 : Row := { r with grade_numeric := r.Grade.bind grade_to_number }
    if r1.grade_numeric.isSome then
      some { r1 with Gender := r1.Gender.map String.toLower,
                     RaceEthnicity := r1.RaceEthnicity.map String.toLower,
                     Course := r1.Course.map String.toUpper }
    else none
  else none

theorem cleanTable_eq_filterMap (t : List Row) : cleanTable t = t.filterMap cleanRow := by
  induction t with
  | nil => rfl
  | cons a t ih =>
    by_cases h1 : allPresent a
    · by_cases h2 : (a.Grade.bind grade_to_number).isSome
      · simp only [cleanTable, dropnaAll, addGradeNumeric, dropnaGradeNumeric, lowerGender,
          lowerRace, upperCourse, List.filter_cons, List.map_cons, List.filterMap_cons,
          cleanRow, h1, h2, if_true] at ih ⊢
        exact congrArg _ ih
      · simp only [cleanTable, dropnaAll, addGradeNumeric, dropnaGradeNumeric, lowerGender,
          lowerRace, upperCourse, List.filter_cons, List.map_cons, List.filterMap_cons,
          cleanRow, h1, h2, if_true, if_false] at ih ⊢
        exact ih
    · simp only [cleanTable, dropnaAll, addGradeNumeric, dropnaGradeNumeric, lowerGender,
        lowerRace, upperCourse, List.filter_cons, List.map_cons, List.filterMap_cons,
        cleanRow, h1, if_false] at ih ⊢
      exact ih

/-! ### The aggregation of `update_graph` (app.py lines 112-166) -/

/-- The value of one cell of the table: a string cell, the numeric
`grade_numeric` cell, or NaN. -/
inductive CellVal where
  | str (s : String)
  | num (q : ℚ)
  | na
deriving DecidableEq, Repr

/-- View an optional string cell as a `CellVal` (NaN for `none`). -/
def toCell : Option String → CellVal
  | some s => CellVal.str s
  | none => CellVal.na

/-- Column access `r[c]` for the columns of the cleaned dataframe.  An unknown
column name yields `na`; `update_graph` guards every grouping column by
membership in `dfColumns`, so that case is never grouped on. -/
def getCol (r : Row) (c : String) : CellVal :=
  if c = "Grade" then toCell r.Grade
  else if c = "Gender" then toCell r.Gender
  else if c = "Race/Ethnicity" then toCell r.RaceEthnicity
  else if c = "Course" then toCell r.Course
  else if c = "Semester" then toCell r.Semester
  else if c = "COVID Impact" then toCell r.CovidImpact
  else if c = "First Generation" then toCell r.FirstGeneration
  else if c = "grade_numeric" then
    match r.grade_numeric with
    | some q => CellVal.num q
    | none => CellVal.na
  else CellVal.na

/-- The group-by key of a row for the grouping columns `gf`. -/
def rowKey (gf : List String) (r : Row) : List CellVal :=
  gf.map (fun c => getCol r c)

/-- A key is usable by pandas `groupby` iff no component is NaN (pandas drops
NaN keys by default). -/
def keyValid (k : List CellVal) : Bool :=
  k.all (fun v => v ≠ CellVal.na)

/-- The rows that participate in `groupby(group_fields)`. -/
def validRows (gf : List String) (t : List Row) : List Row :=
  t.filter (fun r => keyValid (rowKey gf r))

/-- The distinct group keys produced by `groupby(group_fields)`. -/
def groupKeys (gf : List String) (t : List Row) : List (List CellVal) :=
  ((validRows gf t).map (rowKey gf)).dedup

/-- `groupby(group_fields).size()` for one key. -/
def countKey (gf : List String) (t : List Row) (k : List CellVal) : ℕ :=
  ((validRows gf t).filter (fun r => rowKey gf r = k)).length

/-- The table `counts = filtered_df.groupby(group_fields).size().reset_index(name='counts')`
(app.py lines 131-132), as the list of (key, size) pairs. -/
def countsTable (gf : List String) (t : List Row) : List (List CellVal × ℕ) :=
  (groupKeys gf t).map (fun k => (k, countKey gf t k))

/-- `total_counts = counts.groupby(group_fields[:-1])['counts'].transform('sum')`
(app.py line 133): for a key `k`, the sum of the sizes of all groups that agree
with `k` on every field but the last (`Grade`). -/
def totalFor (gf : List String) (t : List Row) (k : List CellVal) : ℚ :=
  (((countsTable gf t).filter (fun e => e.1.dropLast = k.dropLast)).map
    (fun e => (e.2 : ℚ))).sum

/-- One row of the aggregated table rendered by the chart: the group key, its
`counts` entry and its `percentage` entry. -/
structure AggRow where
  key : List CellVal
  counts : ℕ
  percentage : ℚ
deriving DecidableEq, Repr

/-- `counts['percentage'] = (counts['counts'] / total_counts) * 100`
(app.py line 134) applied to every row of the counts table. -/
def aggregate (gf : List String) (t : List Row) : List AggRow :=
  (countsTable gf t).map (fun e => ⟨e.1, e.2, (e.2 : ℚ) / totalFor gf t e.1 * 100⟩)

/-- The columns of the cleaned dataframe.

Modelled from the spec: the CSV data file (`data/data_sim_updated.csv`) is not
part of the source tree, so the set of loaded columns is taken from the spec's
list of required columns (Grade, Gender, Race/Ethnicity, Course, Semester,
COVID Impact, First Generation), with the derived `grade_numeric` column
appended by the pipeline.  Only membership in this list matters below. -/
def dfColumns : List String :=
  ["Grade", "Gender", "Race/Ethnicity", "Course", "Semester", "COVID Impact",
   "First Generation", "grade_numeric"]

/-- Python truthiness of an optional dropdown value: `None` and the empty
string are falsy. -/
def truthy : Option String → Bool
  | none => false
  | some s => !s.isEmpty

/-- Outcome of one invocation of the `update_graph` callback:
`preventUpdate` models `raise PreventUpdate` (previous chart retained),
`keyError` models the pandas exception raised by grouping on a column that
does not exist, and `ok agg` carries the aggregated table the figure is built
from. -/
inductive UpdateResult where
  | preventUpdate
  | keyError
  | ok (agg : List AggRow)
deriving DecidableEq, Repr

/-- `update_graph` (app.py lines 112-134): the guard on an unset primary
selection, the choice of `color_col` and `facet_row`, the grouping-field list,
and the counts/percentage aggregation.  The figure-layout part (bar chart,
heights) consumes `aggregate` unchanged and is external. -/
def update_graph (t : List Row) (primary_selection secondary_selection : Option String) :
    UpdateResult :=
  if truthy primary_selection = false then UpdateResult.preventUpdate
  else
    let p := primary_selection.getD ""
    let s := secondary_selection.getD ""
    let color_col : Option String := if p ∈ dfColumns then some p else none
    let facet_row : Option String :=
      if truthy secondary_selection = true ∧ s ∈ dfColumns ∧ s ≠ p then some s else none
    match color_col with
    | none => UpdateResult.keyError
    | some cc =>
      let group_fields : List String :=
        match facet_row with
        | some fr => [cc, fr, "Grade"]
        | none => [cc, "Grade"]
      UpdateResult.ok (aggregate group_fields t)

/-- `set_secondary_options` (app.py lines 101-104): the list of
label/value option pairs offered by the drill-down dropdown, for a given list
of dataframe columns and the currently selected primary field. -/
def set_secondary_options (cols : List String) (selected_primary : String) :
    List (String × String) :=
  (cols.filter (fun col => col ∉ ["Grade", "grade_numeric", selected_primary])).map
    (fun col => (col, col))

/-! ### Case transforms are idempotent -/

theorem char_toNat_ofNat_lt (m : ℕ) (h : m < 55296) : (Char.ofNat m).toNat = m := by
  have hv : m.isValidChar := Or.inl h
  rw [Char.ofNat, dif_pos hv]
  rfl

theorem char_toLower_hi (c : Char) (h : c.toNat ≥ 65 ∧ c.toNat ≤ 90) :
    c.toLower = Char.ofNat (c.toNat + 32) := by
  simp only [Char.toLower]
  rw [if_pos h]

theorem char_toLower_lo (c : Char) (h : ¬(c.toNat ≥ 65 ∧ c.toNat ≤ 90)) :
    c.toLower = c := by
  simp only [Char.toLower]
  rw [if_neg h]

theorem char_toLower_idem (c : Char) : c.toLower.toLower = c.toLower := by
  by_cases h : c.toNat ≥ 65 ∧ c.toNat ≤ 90
  · rw [char_toLower_hi c h]
    apply char_toLower_lo
    rw [char_toNat_ofNat_lt (c.toNat + 32) (by omega)]
    omega
  · rw [char_toLower_lo c h]
    exact char_toLower_lo c h

theorem char_toUpper_hi (c : Char) (h : c.toNat ≥ 97 ∧ c.toNat ≤ 122) :
    c.toUpper = Char.ofNat (c.toNat - 32) := by
  simp only [Char.toUpper]
  rw [if_pos h]

theorem char_toUpper_lo (c : Char) (h : ¬(c.toNat ≥ 97 ∧ c.toNat ≤ 122)) :
    c.toUpper = c := by
  simp only [Char.toUpper]
  rw [if_neg h]

theorem char_toUpper_idem (c : Char) : c.toUpper.toUpper = c.toUpper := by
  by_cases h : c.toNat ≥ 97 ∧ c.toNat ≤ 122
  · rw [char_toUpper_hi c h]
    apply char_toUpper_lo
    rw [char_toNat_ofNat_lt (c.toNat - 32) (by omega)]
    omega
  · rw [char_toUpper_lo c h]
    exact char_toUpper_lo c h

theorem string_toLower_idem (s : String) : s.toLower.toLower = s.toLower := by
  simp only [String.toLower, String.map_eq, List.map_map]
  exact congrArg String.mk (List.map_congr_left (fun c _ => char_toLower_idem c))

theorem string_toUpper_idem (s : String) : s.toUpper.toUpper = s.toUpper := by
  simp only [String.toUpper, String.map_eq, List.map_map]
  exact congrArg String.mk (List.map_congr_left (fun c _ => char_toUpper_idem c))

theorem option_toLower_idem (o : Option String) :
    (o.map String.toLower).map String.toLower = o.map String.toLower := by
  cases o with
  | none => rfl
  | some s => simp [string_toLower_idem]

theorem option_toUpper_idem (o : Option String) :
    (o.map String.toUpper).map String.toUpper = o.map String.toUpper := by
  cases o with
  | none => rfl
  | some s => simp [string_toUpper_idem]

theorem option_toLower_comp (o : Option String) :
    o.map (String.toLower ∘ String.toLower) = o.map String.toLower := by
  cases o with
  | none => rfl
  | some s => simp [Function.comp, string_toLower_idem]

theorem option_toUpper_comp (o : Option String) :
    o.map (String.toUpper ∘ String.toUpper) = o.map String.toUpper := by
  cases o with
  | none => rfl
  | some s => simp [Function.comp, string_toUpper_idem]

/-! ### Per-row pipeline facts -/

theorem cleanRow_isSome_inv (a b : Row) (h : cleanRow a = some b) :
    allPresent a = true ∧ (a.Grade.bind grade_to_number).isSome = true ∧
    b = { a with grade_numeric := a.Grade.bind grade_to_number,
                 Gender := a.Gender.map String.toLower,
                 RaceEthnicity := a.RaceEthnicity.map String.toLower,
                 Course := a.Course.map String.toUpper } := by
  simp only [cleanRow] at h
  split_ifs at h with h1 h2
  · refine ⟨h1, h2, ?_⟩
    simp only [Option.some.injEq] at h
    exact h.symm

theorem cleanRow_clean (a b : Row) (h : cleanRow a = some b) : cleanRow b = some b := by
  obtain ⟨h1, h2, rfl⟩ := cleanRow_isSome_inv a b h
  simp only [allPresent, Bool.and_eq_true] at h1
  obtain ⟨⟨⟨⟨⟨⟨hG, hGe⟩, hR⟩, hC⟩, hS⟩, hCo⟩, hF⟩ := h1
  simp [cleanRow, allPresent, Option.isSome_map, hG, hGe, hR, hC, hS, hCo, hF, h2,
    option_toLower_comp, option_toUpper_comp]

theorem cleanRow_invalid_grade (r : Row) (g : String) (hg : r.Grade = some g)
    (hbad : grade_to_number g = none) : cleanRow r = none := by
  simp only [cleanRow, hg]
  split_ifs with h1 h2
  · exact absurd h2 (by simp [hbad])
  · rfl
  · rfl

/-! ### Claim theorems about the cleaning pipeline -/

/-- C1: `grade_to_number` maps each of the 14 supported grade symbols to
exactly the spec's numeric value, and every other string to the invalid
marker (NaN, modelled as `none`). -/
theorem grade_to_number_spec :
    grade_to_number "A+" = some (433/100) ∧
    grade_to_number "A" = some 4 ∧
    grade_to_number "A-" = some (367/100) ∧
    grade_to_number "B+" = some (333/100) ∧
    grade_to_number "B" = some 3 ∧
    grade_to_number "B-" = some (267/100) ∧
    grade_to_number "C+" = some (233/100) ∧
    grade_to_number "C" = some 2 ∧
    grade_to_number "C-" = some (167/100) ∧
    grade_to_number "D+" = some (133/100) ∧
    grade_to_number "D" = some 1 ∧
    grade_to_number "D-" = some (67/100) ∧
    grade_to_number "F" = some 0 ∧
    grade_to_number "W" = some (-(3/10)) ∧
    ∀ g : String,
      g ∉ ["A+", "A", "A-", "B+", "B", "B-", "C+", "C", "C-", "D+", "D", "D-", "F", "W"] →
      grade_to_number g = none := by
  refine ⟨rfl, rfl, rfl, rfl, rfl, rfl, rfl, rfl, rfl, rfl, rfl, rfl, rfl, rfl, ?_⟩
  intro g hg
  simp only [List.mem_cons, List.not_mem_nil, or_false, not_or] at hg
  obtain ⟨h1, h2, h3, h4, h5, h6, h7, h8, h9, h10, h11, h12, h13, h14⟩ := hg
  simp [grade_to_number, h1, h2, h3, h4, h5, h6, h7, h8, h9, h10, h11, h12, h13, h14]

/-- Witness for C1: the unmapped symbol "Z" gets the invalid marker. -/
theorem grade_to_number_spec_witness : grade_to_number "Z" = none :=
  grade_to_number_spec.2.2.2.2.2.2.2.2.2.2.2.2.2.2 "Z" (by decide)

/-- C3: a row whose Grade is not one of the 14 supported symbols is silently
dropped by the startup cleaning pipeline (a total function — no error is
raised), so it is absent from the cleaned table and from everything
`update_graph` computes from it, the percentage denominators included. -/
theorem invalid_grade_row_dropped (pre post : List Row) (r : Row) (g : String)
    (hg : r.Grade = some g) (hbad : grade_to_number g = none) :
    cleanTable (pre ++ r :: post) = cleanTable (pre ++ post) ∧
    ∀ p s : Option String,
      update_graph (cleanTable (pre ++ r :: post)) p s =
        update_graph (cleanTable (pre ++ post)) p s := by
  have h1 : cleanTable (pre ++ r :: post) = cleanTable (pre ++ post) := by
    rw [cleanTable_eq_filterMap, cleanTable_eq_filterMap]
    simp [List.filterMap_cons, cleanRow_invalid_grade r g hg hbad]
  exact ⟨h1, fun p s => by rw [h1]⟩

/-- C4: every row of the cleaned table is the image of a loaded row whose
Gender and Race/Ethnicity were lowercased and whose Course was uppercased;
the resulting fields are fixed points of those case transforms. -/
theorem cleanTable_fields_canonical (t : List Row) (r : Row) (hr : r ∈ cleanTable t) :
    ∃ r0 ∈ t,
      r.Gender = r0.Gender.map String.toLower ∧
      r.RaceEthnicity = r0.RaceEthnicity.map String.toLower ∧
      r.Course = r0.Course.map String.toUpper ∧
      r.Gender.map String.toLower = r.Gender ∧
      r.RaceEthnicity.map String.toLower = r.RaceEthnicity ∧
      r.Course.map String.toUpper = r.Course := by
  rw [cleanTable_eq_filterMap] at hr
  obtain ⟨a, ha, hc⟩ := List.mem_filterMap.mp hr
  obtain ⟨h1, h2, rfl⟩ := cleanRow_isSome_inv a r hc
  exact ⟨a, ha, rfl, rfl, rfl, option_toLower_idem a.Gender,
    option_toLower_idem a.RaceEthnicity, option_toUpper_idem a.Course⟩

/-- C8: the cleaning pipeline is idempotent — on a table that is already its
output it drops no rows and changes no field values. -/
theorem cleanTable_idempotent (t : List Row) :
    cleanTable (cleanTable t) = cleanTable t := by
  rw [cleanTable_eq_filterMap t, cleanTable_eq_filterMap, List.filterMap_filterMap]
  refine congrArg (fun f => List.filterMap f t) (funext fun a => ?_)
  cases hc : cleanRow a with
  | none => rfl
  | some b => simpa [hc] using cleanRow_clean a b hc

/-! ### Claim theorems about the callbacks' guards and options -/

/-- C5: selecting the primary field again as the secondary field produces
exactly the same `update_graph` outcome as selecting no secondary field:
the duplicate-key guard forces `facet_row = None` in both cases. -/
theorem secondary_eq_primary_is_no_secondary (t : List Row) (p : String) :
    update_graph t (some p) (some p) = update_graph t (some p) none := by
  simp [update_graph, truthy]

/-- C7: when the primary selection is unset (`None` or cleared to the empty
string), `update_graph` raises `PreventUpdate`: no aggregation happens, the
previous chart is retained, and the outcome is not the error outcome. -/
theorem unset_primary_prevents_update (t : List Row) (s : Option String) :
    update_graph t none s = UpdateResult.preventUpdate ∧
    update_graph t (some "") s = UpdateResult.preventUpdate ∧
    UpdateResult.preventUpdate ≠ UpdateResult.keyError := by
  refine ⟨?_, ?_, by simp⟩
  · unfold update_graph
    rw [if_pos (show truthy none = false by rfl)]
  · unfold update_graph
    rw [if_pos (show truthy (some "") = false by rfl)]

/-- C6: for any column list and any primary selection, the drill-down options
returned by `set_secondary_options` are exactly the columns other than
`Grade`, `grade_numeric` and the primary selection, each offered as a
label/value pair.  In particular no option ever equals `Grade`,
`grade_numeric` or the selected primary field. -/
theorem set_secondary_options_spec (cols : List String) (primary : String)
    (o : String × String) :
    o ∈ set_secondary_options cols primary ↔
      o.1 = o.2 ∧ o.2 ∈ cols ∧ o.2 ≠ "Grade" ∧ o.2 ≠ "grade_numeric" ∧ o.2 ≠ primary := by
  constructor
  · intro h
    simp only [set_secondary_options, List.mem_map, List.mem_filter] at h
    obtain ⟨c, ⟨hc, hne⟩, rfl⟩ := h
    simp only [List.mem_cons, List.not_mem_nil, or_false, not_or, decide_eq_true_eq] at hne
    exact ⟨rfl, hc, hne.1, hne.2.1, hne.2.2⟩
  · rintro ⟨h1, h2, h3, h4, h5⟩
    rcases o with ⟨x, y⟩
    dsimp only at h1 h2 h3 h4 h5
    subst h1
    simp only [set_secondary_options, List.mem_map, List.mem_filter]
    exact ⟨x, ⟨h2, by simp [h3, h4, h5]⟩, rfl⟩

/-! ### Aggregation facts -/

theorem countKey_pos (gf : List String) (t : List Row) (k : List CellVal)
    (hk : k ∈ groupKeys gf t) : 0 < countKey gf t k := by
  simp only [groupKeys, List.mem_dedup, List.mem_map] at hk
  obtain ⟨r, hr, hrk⟩ := hk
  have hmem : r ∈ (validRows gf t).filter (fun r => rowKey gf r = k) :=
    List.mem_filter.mpr ⟨hr, by simp [hrk]⟩
  refine List.length_pos.mpr fun he => ?_
  rw [he] at hmem
  exact absurd hmem (List.not_mem_nil r)

theorem totalFor_congr (gf : List String) (t : List Row) (k k2 : List CellVal)
    (h : k.dropLast = k2.dropLast) : totalFor gf t k = totalFor gf t k2 := by
  simp only [totalFor, h]

theorem countKey_le_totalFor (gf : List String) (t : List Row) (k : List CellVal)
    (hk : k ∈ groupKeys gf t) :
    (countKey gf t k : ℚ) ≤ totalFor gf t k ∧ 0 < totalFor gf t k := by
  have hmem : ((k, countKey gf t k) : List CellVal × ℕ) ∈
      (countsTable gf t).filter (fun e => e.1.dropLast = k.dropLast) := by
    refine List.mem_filter.mpr ⟨?_, by simp⟩
    simp only [countsTable, List.mem_map]
    exact ⟨k, hk, rfl⟩
  have hle : (countKey gf t k : ℚ) ≤ totalFor gf t k := by
    refine List.single_le_sum (fun q hq => ?_) _ (List.mem_map_of_mem _ hmem)
    simp only [List.mem_map] at hq
    obtain ⟨e, _, rfl⟩ := hq
    exact Nat.cast_nonneg e.2
  refine ⟨hle, lt_of_lt_of_le ?_ hle⟩
  exact_mod_cast countKey_pos gf t k hk

theorem sum_percentage_eq_100 (gf : List String) (t : List Row) (k0 : List CellVal)
    (hk0 : ∃ a ∈ aggregate gf t, a.key.dropLast = k0) :
    (((aggregate gf t).filter (fun a => a.key.dropLast = k0)).map
      (fun a => a.percentage)).sum = 100 := by
  obtain ⟨a, ha, hak⟩ := hk0
  obtain ⟨e0, he0, hFe0⟩ := List.mem_map.mp (by rw [aggregate] at ha; exact ha)
  subst hFe0
  have he0k : e0.1.dropLast = k0 := hak
  obtain ⟨k1, hk1, hke⟩ := List.mem_map.mp (by rw [countsTable] at he0; exact he0)
  have hT0 : 0 < totalFor gf t e0.1 := by
    rw [← hke]
    exact (countKey_le_totalFor gf t k1 hk1).2
  have hT : totalFor gf t e0.1 =
      (((countsTable gf t).filter (fun e => e.1.dropLast = k0)).map
        (fun e => (e.2 : ℚ))).sum := by
    simp only [totalFor, he0k]
  have hfilter : (aggregate gf t).filter (fun a => a.key.dropLast = k0) =
      ((countsTable gf t).filter (fun e => e.1.dropLast = k0)).map
        (fun e => (⟨e.1, e.2, (e.2 : ℚ) / totalFor gf t e.1 * 100⟩ : AggRow)) := by
    rw [aggregate, List.filter_map]
    exact congrArg _ (List.filter_congr fun e _ => rfl)
  rw [hfilter, List.map_map]
  have hcongr : ((countsTable gf t).filter (fun e => e.1.dropLast = k0)).map
      ((fun a : AggRow => a.percentage) ∘
        (fun e : List CellVal × ℕ => (⟨e.1, e.2, (e.2 : ℚ) / totalFor gf t e.1 * 100⟩ : AggRow))) =
      ((countsTable gf t).filter (fun e => e.1.dropLast = k0)).map
        (fun e => (e.2 : ℚ) * (100 / totalFor gf t e0.1)) := by
    refine List.map_congr_left fun e he => ?_
    have hek : e.1.dropLast = k0 := by
      have := (List.mem_filter.mp he).2
      simpa using this
    have : totalFor gf t e.1 = totalFor gf t e0.1 :=
      totalFor_congr gf t e.1 e0.1 (by rw [hek, he0k])
    show (e.2 : ℚ) / totalFor gf t e.1 * 100 = (e.2 : ℚ) * (100 / totalFor gf t e0.1)
    rw [this, div_mul_eq_mul_div, mul_div_assoc]
  rw [hcongr, List.sum_map_mul_right, ← hT, mul_comm, div_mul_cancel₀ _ hT0.ne']

theorem update_graph_ok_inv (t : List Row) (p s : Option String) (agg : List AggRow)
    (h : update_graph t p s = UpdateResult.ok agg) :
    ∃ gf : List String, agg = aggregate gf t ∧ ∀ c ∈ gf, c ∈ dfColumns := by
  simp only [update_graph] at h
  split at h
  · exact absurd h (by simp)
  · split at h
    · exact absurd h (by simp)
    · rename_i cc heq
      have hcc : cc ∈ dfColumns := by
        by_cases hp : p.getD "" ∈ dfColumns
        · rw [if_pos hp] at heq
          injection heq with heq2
          exact heq2 ▸ hp
        · rw [if_neg hp] at heq
          exact absurd heq (by simp)
      by_cases hs : truthy s = true ∧ s.getD "" ∈ dfColumns ∧ s.getD "" ≠ p.getD ""
      · rw [if_pos hs] at h
        simp only [UpdateResult.ok.injEq] at h
        refine ⟨[cc, s.getD "", "Grade"], h.symm, fun c hc => ?_⟩
        rcases (by simpa using hc : c = cc ∨ c = s.getD "" ∨ c = "Grade") with rfl | rfl | rfl
        · exact hcc
        · exact hs.2.1
        · decide
      · rw [if_neg hs] at h
        simp only [UpdateResult.ok.injEq] at h
        refine ⟨[cc, "Grade"], h.symm, fun c hc => ?_⟩
        rcases (by simpa using hc : c = cc ∨ c = "Grade") with rfl | rfl
        · exact hcc
        · decide

theorem sum_countKey (gf : List String) (t : List Row) :
    ((groupKeys gf t).map (fun k => countKey gf t k)).sum = (validRows gf t).length := by
  have hmapc := List.sum_map_count_dedup_eq_length ((validRows gf t).map (rowKey gf))
  rw [List.length_map] at hmapc
  rw [show groupKeys gf t = ((validRows gf t).map (rowKey gf)).dedup from rfl, ← hmapc]
  refine congrArg List.sum (List.map_congr_left fun k _ => ?_)
  rw [@List.count_eq_countP (List CellVal) instBEqOfDecidableEq, List.countP_map,
    List.countP_eq_length_filter]
  rfl

theorem getCol_ne_na (r : Row) (c : String) (hc : c ∈ dfColumns)
    (h1 : allPresent r = true) (h2 : r.grade_numeric.isSome = true) :
    getCol r c ≠ CellVal.na := by
  simp only [allPresent, Bool.and_eq_true] at h1
  obtain ⟨⟨⟨⟨⟨⟨hG, hGe⟩, hR⟩, hC⟩, hS⟩, hCo⟩, hF⟩ := h1
  simp only [dfColumns, List.mem_cons, List.not_mem_nil, or_false] at hc
  obtain ⟨q, hq⟩ := Option.isSome_iff_exists.mp h2
  rcases hc with rfl | rfl | rfl | rfl | rfl | rfl | rfl | rfl
  · obtain ⟨x, hx⟩ := Option.isSome_iff_exists.mp hG
    show toCell r.Grade ≠ CellVal.na
    simp [hx, toCell]
  · obtain ⟨x, hx⟩ := Option.isSome_iff_exists.mp hGe
    show toCell r.Gender ≠ CellVal.na
    simp [hx, toCell]
  · obtain ⟨x, hx⟩ := Option.isSome_iff_exists.mp hR
    show toCell r.RaceEthnicity ≠ CellVal.na
    simp [hx, toCell]
  · obtain ⟨x, hx⟩ := Option.isSome_iff_exists.mp hC
    show toCell r.Course ≠ CellVal.na
    simp [hx, toCell]
  · obtain ⟨x, hx⟩ := Option.isSome_iff_exists.mp hS
    show toCell r.Semester ≠ CellVal.na
    simp [hx, toCell]
  · obtain ⟨x, hx⟩ := Option.isSome_iff_exists.mp hCo
    show toCell r.CovidImpact ≠ CellVal.na
    simp [hx, toCell]
  · obtain ⟨x, hx⟩ := Option.isSome_iff_exists.mp hF
    show toCell r.FirstGeneration ≠ CellVal.na
    simp [hx, toCell]
  · show (match r.grade_numeric with
      | some q => CellVal.num q
      | none => CellVal.na) ≠ CellVal.na
    simp [hq]

theorem validRows_eq_self (gf : List String) (t : List Row)
    (hgf : ∀ c ∈ gf, c ∈ dfColumns)
    (hclean : ∀ r ∈ t, allPresent r = true ∧ r.grade_numeric.isSome = true) :
    validRows gf t = t := by
  rw [validRows, List.filter_eq_self]
  intro r hr
  simp only [keyValid, rowKey, List.all_eq_true, List.mem_map, decide_eq_true_eq,
    forall_exists_index, and_imp]
  rintro v c hcgf rfl
  exact getCol_ne_na r c (hgf c hcgf) (hclean r hr).1 (hclean r hr).2

/-! ### Concrete example data, used by the witnesses -/

/-- A fully populated student row for course `c` with grade `g`. -/
def exRow (c g : String) : Row :=
  { Grade := some g, Gender := some "male", RaceEthnicity := some "white",
    Course := some c, Semester := some "2020 Fall", CovidImpact := some "no",
    FirstGeneration := some "no", grade_numeric := grade_to_number g }

/-- The spec's worked example: three CS101 rows with grades A, B, A. -/
def exTable : List Row := [exRow "CS101" "A", exRow "CS101" "B", exRow "CS101" "A"]

/-- The first row of the aggregation of `exTable` by Course. -/
def exAggRow : AggRow :=
  ((aggregate ["Course", "Grade"] exTable).head?).getD ⟨[], 0, 0⟩

/-- A loaded row with mixed-case fields, not yet cleaned. -/
def rawRow : Row :=
  { Grade := some "B+", Gender := some "Male", RaceEthnicity := some "White",
    Course := some "cs101", Semester := some "2020 Fall", CovidImpact := some "No",
    FirstGeneration := some "No", grade_numeric := none }

/-- The row `rawRow` becomes after cleaning. -/
def exCleanRow : Row :=
  ((cleanTable [rawRow]).head?).getD rawRow

/-- A loaded row carrying the unsupported grade symbol "Z". -/
def badRow : Row :=
  { Grade := some "Z", Gender := some "male", RaceEthnicity := some "white",
    Course := some "CS101", Semester := some "2020 Fall", CovidImpact := some "no",
    FirstGeneration := some "no", grade_numeric := none }

/-- Witness for C3: prepending the grade-"Z" row to a one-row table leaves the
cleaned table unchanged. -/
theorem invalid_grade_row_dropped_witness :
    cleanTable [badRow, exRow "CS101" "A"] = cleanTable [exRow "CS101" "A"] :=
  (invalid_grade_row_dropped [] [exRow "CS101" "A"] badRow "Z" rfl rfl).1

/-- Witness for C4: the cleaned image of `rawRow` has lowercased Gender and
Race/Ethnicity and uppercased Course. -/
theorem cleanTable_fields_canonical_witness :
    ∃ r0 ∈ [rawRow],
      exCleanRow.Gender = r0.Gender.map String.toLower ∧
      exCleanRow.RaceEthnicity = r0.RaceEthnicity.map String.toLower ∧
      exCleanRow.Course = r0.Course.map String.toUpper ∧
      exCleanRow.Gender.map String.toLower = exCleanRow.Gender ∧
      exCleanRow.RaceEthnicity.map String.toLower = exCleanRow.RaceEthnicity ∧
      exCleanRow.Course.map String.toUpper = exCleanRow.Course :=
  cleanTable_fields_canonical [rawRow] exCleanRow (List.mem_of_mem_head? rfl)

/-! ### Claim theorems about the aggregation -/

/-- C2: for a non-empty table and any selections accepted by `update_graph`,
the percentages across all Grade values within one fixed
(primary[, secondary]) group — the aggregated rows sharing every key
component but the last — sum to exactly 100 in exact rational arithmetic. -/
theorem percentages_sum_to_100 (t : List Row) (p s : Option String) (agg : List AggRow)
    (ht : t ≠ []) (hok : update_graph t p s = UpdateResult.ok agg) (k0 : List CellVal)
    (hk0 : k0 ∈ (agg.map (fun a => a.key.dropLast)).dedup) :
    ((agg.filter (fun a => a.key.dropLast = k0)).map (fun a => a.percentage)).sum = 100 := by
  obtain ⟨gf, rfl, -⟩ := update_graph_ok_inv t p s agg hok
  apply sum_percentage_eq_100
  simp only [List.mem_dedup, List.mem_map] at hk0
  simpa using hk0

/-- Witness for C2: the spec's worked example — three CS101 rows with grades
A, B, A aggregated by Course alone — has its percentages sum to 100. -/
theorem percentages_sum_to_100_witness :
    (((aggregate ["Course", "Grade"] exTable).filter
        (fun a => a.key.dropLast = [CellVal.str "CS101"])).map (fun a => a.percentage)).sum
      = 100 :=
  percentages_sum_to_100 exTable (some "Course") none (aggregate ["Course", "Grade"] exTable)
    (by decide) rfl [CellVal.str "CS101"] (by decide)

/-- C9: every row of the table aggregated by `update_graph` has an integer
count that is at least 1 (hence at least 0), a percentage within [0, 100],
and a strictly positive per-group denominator, so the division computing the
percentage never divides by zero. -/
theorem aggregate_row_bounds (t : List Row) (p s : Option String) (gf : List String)
    (hok : update_graph t p s = UpdateResult.ok (aggregate gf t)) (a : AggRow)
    (ha : a ∈ aggregate gf t) :
    1 ≤ a.counts ∧ 0 ≤ a.percentage ∧ a.percentage ≤ 100 ∧
      0 < totalFor gf t a.key ∧
      a.percentage = (a.counts : ℚ) / totalFor gf t a.key * 100 := by
  simp only [aggregate, countsTable, List.map_map, List.mem_map] at ha
  obtain ⟨k, hk, rfl⟩ := ha
  obtain ⟨hle, hpos⟩ := countKey_le_totalFor gf t k hk
  refine ⟨countKey_pos gf t k hk, ?_, ?_, hpos, rfl⟩
  · have h0 : (0 : ℚ) ≤ (countKey gf t k : ℚ) / totalFor gf t k :=
      div_nonneg (Nat.cast_nonneg _) hpos.le
    simpa using mul_nonneg h0 (by norm_num : (0:ℚ) ≤ 100)
  · have h1 : (countKey gf t k : ℚ) / totalFor gf t k ≤ 1 := (div_le_one hpos).mpr hle
    have := mul_le_mul_of_nonneg_right h1 (by norm_num : (0:ℚ) ≤ 100)
    simpa using this

/-- Witness for C9: the first aggregated group of the worked example has a
count of at least 1, a percentage within [0, 100] and a positive
denominator. -/
theorem aggregate_row_bounds_witness :
    1 ≤ exAggRow.counts ∧ 0 ≤ exAggRow.percentage ∧ exAggRow.percentage ≤ 100 ∧
      0 < totalFor ["Course", "Grade"] exTable exAggRow.key ∧
      exAggRow.percentage =
        (exAggRow.counts : ℚ) / totalFor ["Course", "Grade"] exTable exAggRow.key * 100 :=
  aggregate_row_bounds exTable (some "Course") none ["Course", "Grade"] rfl
    exAggRow (List.mem_of_mem_head? rfl)

/-- C10: the aggregation partitions the cleaned table — for any selections
accepted by `update_graph` on a table with no missing values and a valid
numeric grade in every row, the counts of the aggregated rows sum to the
number of table rows. -/
theorem counts_partition_table (t : List Row) (p s : Option String) (agg : List AggRow)
    (hok : update_graph t p s = UpdateResult.ok agg)
    (hclean : ∀ r ∈ t, allPresent r = true ∧ r.grade_numeric.isSome = true) :
    (agg.map (fun a => a.counts)).sum = t.length := by
  obtain ⟨gf, rfl, hgf⟩ := update_graph_ok_inv t p s agg hok
  have h1 : (aggregate gf t).map (fun a => a.counts) =
      (groupKeys gf t).map (fun k => countKey gf t k) := by
    simp only [aggregate, countsTable, List.map_map]
    rfl
  rw [h1, sum_countKey, validRows_eq_self gf t hgf hclean]

/-- Witness for C10: on the worked example the aggregated counts 2 and 1 sum
to the 3 table rows. -/
theorem counts_partition_table_witness :
    ((aggregate ["Course", "Grade"] exTable).map (fun a => a.counts)).sum = exTable.length :=
  counts_partition_table exTable (some "Course") none
    (aggregate ["Course", "Grade"] exTable) rfl (by decide)

end StudentDashboard
